import Mathlib

/-!
Verification development for the usage-static command-line argument engine
(src/src/usage-static.cpp, src/src/include/usage-static.hpp).

The embedding follows the source: the two argument variants become a tagged
union, the registry's declaration-order vector `m_argsorder` becomes a list,
and the parse/validation routines `m_check_unnamed`, `m_check_type`,
`m_parser`, `m_check_requirements`, `m_check_argument`,
`m_check_dependencies` and `set_parameters` are translated function by
function.  Graph-edge identity is by argument name: the C++ stores pointers,
and the registry enforces name uniqueness at insertion, so names are a
faithful stable handle.  The `Requirements`/`Conflicts` template classes live
in headers that are not part of this repository's sources; their queries are
modelled from the spec (sections 4.2 and 4.3) and are marked as such.
The platform constants default to the `__unix__` build: switch character `-`
and help token `h`.
-/

/-- The three value kinds of a named argument (enum `Argument_Type`). -/
inductive Argument_Type
  | string
  | boolean
  | simple
deriving DecidableEq, Repr

/-- The variant-specific payload: `Named_Arg` carries `shortcut_char`,
`m_type` and `m_default_value`; `Unnamed_Arg` carries `many`. -/
inductive ArgVariant
  | named (shortcut_char : Char) (m_type : Argument_Type) (m_default_value : String)
  | unnamed (many : Bool)
deriving DecidableEq, Repr

/-- One declared argument: the shared fields of the C++ `Argument` base class
plus the variant payload. -/
structure Argument where
  m_name : String
  helpstring : String := ""
  m_required : Bool := false
  value : List String := []
  variant : ArgVariant
deriving DecidableEq, Repr

/-- `Argument::named()`: true for the `Named_Arg` variant. -/
def Argument.named (a : Argument) : Bool :=
  match a.variant with
  | .named .. => true
  | .unnamed _ => false

/-- `Named_Arg::type()`; unnamed arguments never reach this accessor. -/
def Argument.typeOf (a : Argument) : Argument_Type :=
  match a.variant with
  | .named _ t _ => t
  | .unnamed _ => .simple

/-- `Named_Arg::default_value()`; empty for unnamed arguments. -/
def Argument.default_value (a : Argument) : String :=
  match a.variant with
  | .named _ _ d => d
  | .unnamed _ => ""

/-- The shortcut character of a named argument, as the one-character string
`name2` built in `m_check_type`. -/
def Argument.shortcutChars (a : Argument) : List Char :=
  match a.variant with
  | .named sc _ _ => [sc]
  | .unnamed _ => []

/-- `Unnamed_Arg::many`; false for named arguments. -/
def Argument.manyFlag (a : Argument) : Bool :=
  match a.variant with
  | .named .. => false
  | .unnamed m => m

/-- The structured form of the messages `set_parameters` can return: one
constructor per literal format string of the source, plus the empty-string
success and the help sentinel "?". -/
inductive Msg
  | ok
  | help
  | noArgument
  | syntaxError (index : Nat) (token : String)
  | typeMismatch (arg : String) (given : Argument_Type) (expected : Argument_Type)
  | unknownArgument (name : String)
  | missingRequired (arg : String)
  | conflict (arg1 : String) (arg2 : String)
deriving DecidableEq, Repr

/-- `AType_toStr`: the label table over `Argument_Type`. -/
def AType_toStr : Argument_Type → String
  | .string => "string"
  | .boolean => "boolean"
  | .simple => "simple"

/-- The literal diagnostic strings of the source, with the format specifiers
filled in (`str_utils::get_message` applied to the format constants). -/
def Msg.render (prog : String) (switch_char : Char) (help_arg : String) : Msg → String
  | .ok => ""
  | .help => "?"
  | .noArgument => "No argument to evaluate."
  | .syntaxError i tok =>
      "Error found in command line argument number " ++ toString i ++ ": '" ++ tok ++
        "' - see " ++ prog ++ " " ++ String.singleton switch_char ++ help_arg ++ " for help."
  | .typeMismatch n g e =>
      "Argument '" ++ n ++ "' passed as '" ++ AType_toStr g ++
        "' while expected type is '" ++ AType_toStr e ++ "' - see " ++ prog ++ " " ++
        String.singleton switch_char ++ help_arg ++ " for help."
  | .unknownArgument n =>
      "Unknown argument '" ++ String.singleton switch_char ++ n ++ "' - see " ++ prog ++
        " " ++ String.singleton switch_char ++ help_arg ++ " for help."
  | .missingRequired n =>
      "Missing required argument '" ++ n ++ "' - see " ++ prog ++ " " ++
        String.singleton switch_char ++ help_arg ++ " for help."
  | .conflict a b =>
      "Arguments '" ++ a ++ "' and '" ++ b ++ "' can't be used together - see " ++ prog ++
        " " ++ String.singleton switch_char ++ help_arg ++ " for help."

/-- The `Usage` registry: declaration-ordered argument list, requirement
edges (dependent, requirement) and literal conflict pairs, both identified by
argument name. -/
structure Usage where
  program_name : String
  description : String := ""
  usage : String := ""
  switch_char : Char := '-'
  help_arg : String := "h"
  m_argsorder : List Argument := []
  m_requirements : List (String × String) := []
  m_conflicts : List (String × String) := []
deriving DecidableEq, Repr

/-- The state the token loop of `m_parser` carries: the registry's arguments
(whose `value` lists it mutates), the `set_args` flags created by
`set_parameters`, the continuation flag `many` and the index `unnamed` of the
unnamed argument currently being filled. -/
structure ParseState where
  args : List Argument
  set_args : List Bool
  many : Bool
  unnamed : Nat
deriving DecidableEq, Repr

/-- `m_argsorder[i]->value.push_back(v)`. -/
def pushValue (args : List Argument) (i : Nat) (v : String) : List Argument :=
  match args[i]? with
  | some a => args.set i { a with value := a.value ++ [v] }
  | none => args

/-- `set_args[i]` (false out of range; in the source the two vectors always
have equal length). -/
def isSetAt (set_args : List Bool) (i : Nat) : Bool :=
  set_args.getD i false

/-- `m_argsorder[i]->name()`. -/
def argNameAt (args : List Argument) (i : Nat) : String :=
  match args[i]? with
  | some a => a.m_name
  | none => ""

/-- `std::find` of an argument over `m_argsorder`, as an index: pointer
identity becomes name identity under the registry's name uniqueness. -/
def nameIdx (args : List Argument) (n : String) : Option Nat :=
  (List.range args.length).find? (fun i => argNameAt args i == n)

/-- `m_argsorder[i]->required()`. -/
def argRequired (args : List Argument) (i : Nat) : Bool :=
  match args[i]? with
  | some a => a.m_required
  | none => false

/-- `std::string::find` for one character, over the character list of the
token (`npos` becomes `none`). -/
def findCharIdx (p : List Char) (c : Char) : Option Nat :=
  let i := p.findIdx (fun x => x == c)
  if i < p.length then some i else none

/-- Modelled from the spec: bounded reachability over a directed edge list,
the derived query behind `exists(..., transitive := true)` of the
`Requirements` template (spec 4.2, a header outside this repository). `fuel`
bounds the path length; a simple path uses each edge at most once, so the
edge count plus one suffices. -/
def reachStep (edges : List (String × String)) : Nat → String → String → Bool
  | 0, _, _ => false
  | n + 1, a, b => edges.any (fun e => e.1 == a && (e.2 == b || reachStep edges n e.2 b))

/-- Modelled from the spec: `Requirements::exists(a, b)` with
`transitive = false`, the direct-edge test (spec 4.2). -/
def reqExistsDirect (u : Usage) (a b : String) : Bool :=
  u.m_requirements.any (fun e => e.1 == a && e.2 == b)

/-- Modelled from the spec: `Requirements::exists(a, b, true)`, reachability
from dependent `a` to requirement `b` via one or more edges (spec 4.2). -/
def reqExistsT (u : Usage) (a b : String) : Bool :=
  reachStep u.m_requirements (u.m_requirements.length + 1) a b

/-- Modelled from the spec: `Requirements::requirements(a)`, the immediate
requirements of dependent `a` (spec 4.2). -/
def directRequirements (u : Usage) (a : String) : List String :=
  (u.m_requirements.filter (fun e => e.1 == a)).map (fun e => e.2)

/-- Modelled from the spec: `Conflicts::conflicts(a)`, the arguments
literally paired with `a`, not the full cascaded group (spec 4.3). -/
def directConflicts (u : Usage) (a : String) : List String :=
  u.m_conflicts.filterMap (fun e =>
    if e.1 == a then some e.2 else if e.2 == a then some e.1 else none)

/-- The conflict pairs read as a symmetric edge list. -/
def conflictEdges (u : Usage) : List (String × String) :=
  u.m_conflicts ++ u.m_conflicts.map (fun e => (e.2, e.1))

/-- Modelled from the spec: `Conflicts::in_conflict(a, b)` with cascading,
true when `a` and `b` are connected through declared pairs, i.e. share a
mutual-exclusion group (spec 4.3). -/
def in_conflict_names (u : Usage) (a b : String) : Bool :=
  reachStep (conflictEdges u) ((conflictEdges u).length + 1) a b

/-- Modelled from the spec: `Conflicts::in_conflict(a)`, true when some
declared pair touches `a` (spec 4.3). -/
def in_conflict_any (u : Usage) (a : String) : Bool :=
  u.m_conflicts.any (fun e => e.1 == a || e.2 == a)

/-- The scan of `m_check_unnamed`'s else-branch: the first declaration-order
index holding an unnamed argument not yet assigned. -/
def firstUnnamedUnset (args : List Argument) (set_args : List Bool) : Option Nat :=
  (List.range args.length).find? (fun i =>
    match args[i]? with
    | some a => !a.named && !(isSetAt set_args i)
    | none => false)

/-- `Usage::m_check_unnamed`.  In continuation mode (`many`) the value is
appended to the argument at index `unnamed`, and — exactly as in the source —
the local `found` flag is never set there, so the function returns `false`;
otherwise the first unassigned unnamed argument receives the value, is
marked set, and continuation mode is entered iff its `many` flag is true. -/
def m_check_unnamed (value : String) (st : ParseState) : Bool × ParseState :=
  if st.many then
    (false, { st with args := pushValue st.args st.unnamed value })
  else
    match firstUnnamedUnset st.args st.set_args with
    | some i =>
        (true,
          { args := pushValue st.args i value
            set_args := st.set_args.set i true
            many := (match st.args[i]? with | some a => a.manyFlag | none => false)
            unnamed := i })
    | none => (false, st)

/-- The loop condition of `m_check_type` at index `i`: a named, still unset
argument whose name or shortcut equals the name part `p`. -/
def typeMatchAt (p : List Char) (args : List Argument) (set_args : List Bool) (i : Nat) : Bool :=
  match args[i]? with
  | some a => a.named && !(isSetAt set_args i) && (p == a.m_name.data || p == a.shortcutChars)
  | none => false

/-- The first index matched by `m_check_type`'s scan. -/
def firstTypeMatch (p : List Char) (args : List Argument) (set_args : List Bool) : Option Nat :=
  (List.range args.length).find? (typeMatchAt p args set_args)

/-- `Usage::m_check_type`: look up the first unset named argument whose name
or shortcut equals `p`; report a type mismatch if its declared kind differs
from the detected kind, assign the value and mark it set otherwise; report an
unknown argument when no unset named argument matches. -/
def m_check_type (p : List Char) (type_p : Argument_Type) (value : String)
    (args : List Argument) (set_args : List Bool) : Msg × List Argument × List Bool :=
  match firstTypeMatch p args set_args with
  | some i =>
    match args[i]? with
    | some a =>
      if type_p ≠ a.typeOf then (.typeMismatch a.m_name type_p a.typeOf, args, set_args)
      else (.ok, pushValue args i value, set_args.set i true)
    | none => (.unknownArgument (String.mk p), args, set_args)
  | none => (.unknownArgument (String.mk p), args, set_args)

/-- The tail of the named-token branch of `m_parser`: the final emptiness
check on the name part and the call to `m_check_type`. -/
def parse_named_finish (i : Nat) (tok : String) (p : List Char) (type_p : Argument_Type)
    (value : List Char) (st : ParseState) : Except (Msg × ParseState) ParseState :=
  if p.isEmpty then .error (.syntaxError i tok, { st with many := false })
  else
    let r := m_check_type p type_p (String.mk value) st.args st.set_args
    if r.1 = Msg.ok then
      .ok { args := r.2.1, set_args := r.2.2, many := false, unnamed := st.unnamed }
    else
      .error (r.1, { args := r.2.1, set_args := r.2.2, many := false, unnamed := st.unnamed })

/-- One iteration of the token loop of `Usage::m_parser` for the token at
(1-based) position `i`.  `Except.ok` is `continue` with the updated state;
`Except.error` ends the parse with the message and the state as mutated so
far.  The steps mirror the source: skip an empty token, strip one leading
switch character, report the help sentinel when the remainder equals the help
token, consume an unnamed token whole, and otherwise split off a quoted
value, classify the trailing shape (`:` / `+`/`-` / simple) and dispatch to
`m_check_type`. -/
def parse_token (u : Usage) (i : Nat) (tok : String) (st : ParseState) :
    Except (Msg × ParseState) ParseState :=
  match tok.data with
  | [] => .ok st
  | c :: rest =>
    let named := c == u.switch_char
    let p := if named then rest else c :: rest
    if p.isEmpty then .error (.syntaxError i tok, st)
    else if p == u.help_arg.data then .error (.help, st)
    else
      let quote := findCharIdx p '"'
      if !named then
        let r := m_check_unnamed (String.mk p) st
        if r.1 then .ok r.2 else .error (.syntaxError i tok, r.2)
      else
        let pv : List Char × List Char :=
          match quote with
          | some q => (p.take q ++ p.drop (q + (p.length - 1)), p.drop (q + 1))
          | none => (p, [])
        let p1 := pv.1
        let value := pv.2
        if p1.isEmpty then .error (.syntaxError i tok, { st with many := false })
        else
          match findCharIdx p1 ':' with
          | some colon =>
            let value1 := if colon < p1.length - 1 then p1.drop (colon + 1) ++ value else value
            parse_named_finish i tok (p1.take colon) .string value1 st
          | none =>
            let sgn := p1.getLastD ' '
            if sgn == '+' || sgn == '-' then
              if value ≠ [] then .error (.syntaxError i tok, { st with many := false })
              else
                parse_named_finish i tok p1.dropLast .boolean
                  (if sgn == '+' then "true".data else "false".data) st
            else
              if value ≠ [] then .error (.syntaxError i tok, { st with many := false })
              else parse_named_finish i tok p1 .simple "true".data st

/-- The token loop of `Usage::m_parser`, starting at position `i`. -/
def m_parser_go (u : Usage) : Nat → List String → ParseState → Msg × ParseState
  | _, [], st => (.ok, st)
  | i, tok :: rest, st =>
    match parse_token u i tok st with
    | .ok st' => m_parser_go u (i + 1) rest st'
    | .error (m, st') => (m, st')

/-- `Usage::m_parser`: process tokens 1..argc-1 (index 0 is the program
name), threading the registry's arguments and the `set_args` flags. -/
def m_parser_main (u : Usage) (argv : List String) (set_args : List Bool) : Msg × ParseState :=
  m_parser_go u 1 (argv.drop 1)
    { args := u.m_argsorder, set_args := set_args, many := false, unnamed := 0 }

/-- The lookup performed for each name in a requirement or conflict list
inside the validation passes: `std::find` of the argument over `m_argsorder`
followed by `set_args[j]`; an argument no longer registered is skipped. -/
def setByName (args : List Argument) (set_args : List Bool) (n : String) : Bool :=
  match nameIdx args n with
  | some j => isSetAt set_args j
  | none => false

/-- `Usage::m_check_requirements`: conditional default backfill for the
argument at `arg_index` — if it is unset, named and carries a non-empty
default, the default is assigned and the argument marked set exactly when it
has no direct requirement or some direct requirement is currently set. -/
def m_check_requirements (u : Usage) (arg_index : Nat) (args : List Argument)
    (set_args : List Bool) : List Argument × List Bool :=
  match args[arg_index]? with
  | some a =>
    if !(isSetAt set_args arg_index) && a.named then
      let dval := a.default_value
      if dval ≠ "" then
        let reqs := directRequirements u a.m_name
        let req_defined := reqs.isEmpty || reqs.any (setByName args set_args)
        if req_defined then (pushValue args arg_index dval, set_args.set arg_index true)
        else (args, set_args)
      else (args, set_args)
    else (args, set_args)
  | none => (args, set_args)

/-- The direct-conflict exemption test of `m_check_argument` at index `i`:
some argument literally paired with `m_argsorder[i]` is currently set. -/
def conSetAny (u : Usage) (args : List Argument) (set_args : List Bool) (i : Nat) : Bool :=
  (directConflicts u (argNameAt args i)).any (setByName args set_args)

/-- The loop of `Usage::m_check_argument` from index `i`, running for `n`
more indices (the source loop bound `m_argsorder.size()` never changes while
it runs: `m_check_requirements` only rewrites values in place). -/
def m_check_argument_go (u : Usage) :
    Nat → Nat → List Argument → List Bool → Option Nat × List Argument × List Bool
  | _, 0, args, set_args => (none, args, set_args)
  | i, n + 1, args, set_args =>
    if !(isSetAt set_args i) && argRequired args i && !(conSetAny u args set_args i) then
      (some i, args, set_args)
    else
      let p := m_check_requirements u i args set_args
      m_check_argument_go u (i + 1) n p.1 p.2

/-- `Usage::m_check_argument` (validation Pass A): scan in declaration
order; return the first unset required argument with no set direct-conflict
partner (the source returns `-1`, here `none`, when there is none), applying
`m_check_requirements` to every index passed over. -/
def m_check_argument (u : Usage) (args : List Argument) (set_args : List Bool) :
    Option Nat × List Argument × List Bool :=
  m_check_argument_go u 0 args.length args set_args

/-- The inner loop (index `j`) of Pass B in `Usage::m_check_dependencies`,
for a fixed set argument `i`. -/
def m_check_dependencies_inner (u : Usage) (args : List Argument) (set_args : List Bool)
    (i : Nat) : List Nat → Option Msg
  | [] => none
  | j :: rest =>
    if i ≠ j then
      if isSetAt set_args j && in_conflict_names u (argNameAt args i) (argNameAt args j) then
        some (.conflict (argNameAt args i) (argNameAt args j))
      else if !(isSetAt set_args j) && reqExistsT u (argNameAt args i) (argNameAt args j) then
        some (.missingRequired (argNameAt args j))
      else m_check_dependencies_inner u args set_args i rest
    else m_check_dependencies_inner u args set_args i rest

/-- The outer loop (index `i`) of Pass B in `Usage::m_check_dependencies`. -/
def m_check_dependencies_outer (u : Usage) (args : List Argument) (set_args : List Bool) :
    List Nat → Msg
  | [] => .ok
  | i :: rest =>
    if isSetAt set_args i then
      match m_check_dependencies_inner u args set_args i (List.range args.length) with
      | some m => m
      | none => m_check_dependencies_outer u args set_args rest
    else m_check_dependencies_outer u args set_args rest

/-- `Usage::m_check_dependencies`: Pass A (`m_check_argument`, turning a
returned index into the missing-required message), then Pass B over all
ordered pairs. -/
def m_check_dependencies (u : Usage) (args : List Argument) (set_args : List Bool) :
    Msg × List Argument × List Bool :=
  match m_check_argument u args set_args with
  | (some i, args', set') => (.missingRequired (argNameAt args' i), args', set')
  | (none, args', set') =>
    (m_check_dependencies_outer u args' set' (List.range args'.length), args', set')

/-- `Usage::set_parameters`: the early `argc == 0` exit, then the parser,
then validation; the second component is the registry as left behind (the
source mutates the argument objects in place, with no rollback on
failure). -/
def set_parameters (u : Usage) (argv : List String) : Msg × Usage :=
  if argv.length = 0 then (.noArgument, u)
  else
    let set_args := List.replicate u.m_argsorder.length false
    let r := m_parser_main u argv set_args
    if r.1 ≠ Msg.ok then (r.1, { u with m_argsorder := r.2.args })
    else
      let d := m_check_dependencies u r.2.args r.2.set_args
      (d.1, { u with m_argsorder := d.2.1 })

/-- `Usage::add_requirement`: the assertion chain of the source, each failed
assertion rendered as `Except.error` with its message.  The duplicate test is
the direct-edge query (spec 4.2: `DuplicateRequirement` on an existing
directed edge). -/
def add_requirement (u : Usage) (dependent requirement : String) : Except String Usage :=
  if dependent = "" ∨ requirement = "" then
    .error "Requirements cannot be created without arguments name."
  else if dependent = requirement then
    .error "An argument cannot require itself."
  else if (nameIdx u.m_argsorder dependent).isNone ∨ (nameIdx u.m_argsorder requirement).isNone then
    .error "Unknown argument name."
  else if in_conflict_names u dependent requirement then
    .error "A requirement can not be set for arguments in conflict."
  else if reqExistsDirect u dependent requirement then
    .error "Requirement is already defined."
  else
    .ok { u with m_requirements := u.m_requirements ++ [(dependent, requirement)] }

/-- `Usage::add_conflict`: the assertion chain of the source; the
requirement test is transitive and in both directions, the existing-conflict
test is group membership (cascading). -/
def add_conflict (u : Usage) (arg1 arg2 : String) : Except String Usage :=
  if arg1 = "" ∨ arg2 = "" then
    .error "Conflicts cannot be created without arguments name."
  else if arg1 = arg2 then
    .error "An argument cannot be in conflict with itself."
  else
    match nameIdx u.m_argsorder arg1, nameIdx u.m_argsorder arg2 with
    | some i, some j =>
      if argRequired u.m_argsorder i ≠ argRequired u.m_argsorder j then
        .error "All arguments in conflict must be either required or unrequired."
      else if reqExistsT u arg1 arg2 || reqExistsT u arg2 arg1 then
        .error "Dependent arguments cannot be in conflict."
      else if in_conflict_names u arg1 arg2 then
        .error "Conflict already exists."
      else
        .ok { u with m_conflicts := u.m_conflicts ++ [(arg1, arg2)] }
    | _, _ => .error "Unknown argument name."

/-- `Usage::remove_Argument`: remove the named argument and purge every
requirement edge and conflict pair touching it (by-name removal; the
registry keeps names unique).  The `NotFound` contract the spec gives the
graphs' own removal helpers is not modelled: it could only turn more states
into failures. -/
def remove_Argument (u : Usage) (name : String) : Except String Usage :=
  match nameIdx u.m_argsorder name with
  | some _ =>
    .ok { u with
      m_argsorder := u.m_argsorder.filter (fun a => !(a.m_name == name))
      m_requirements := u.m_requirements.filter (fun e => !(e.1 == name || e.2 == name))
      m_conflicts := u.m_conflicts.filter (fun e => !(e.1 == name || e.2 == name)) }
  | none => .error "Unknown argument name."

/-- The key expression `m_arguments[0]` in `Usage::remove_all`: the literal
`0` converts to a null `const char*`, and constructing the `std::string` map
key from a null pointer is undefined behavior.  The model takes the most
favorable reading, the empty string. -/
def NULL_KEY : String := ""

/-- The fault `remove_all` runs into on a non-empty registry: under the
favorable reading of `NULL_KEY`, `m_arguments[0]` default-inserts a null
`Argument*` whenever no argument is named `NULL_KEY`, and the following
`->name()` call dereferences that null pointer. -/
def NULL_DEREF : String := "null Argument dereference in remove_all"

/-- The loop of `Usage::remove_all` (`while (!m_arguments.empty())
remove_Argument(m_arguments[0]->name());`), with fuel: each successful
removal shrinks the registry, so the initial size bounds the iterations. -/
def remove_all_go : Nat → Usage → Except String Usage
  | 0, u => if u.m_argsorder.isEmpty then .ok u else .error NULL_DEREF
  | n + 1, u =>
    if u.m_argsorder.isEmpty then .ok u
    else
      match u.m_argsorder.find? (fun a => a.m_name == NULL_KEY) with
      | some a =>
        match remove_Argument u a.m_name with
        | .ok u' => remove_all_go n u'
        | .error e => .error e
      | none => .error NULL_DEREF

/-- `Usage::remove_all`. -/
def remove_all (u : Usage) : Except String Usage :=
  remove_all_go u.m_argsorder.length u

/-- `Usage::clear`: `remove_all` then clearing the descriptive strings. -/
def clear (u : Usage) : Except String Usage :=
  match remove_all u with
  | .ok u' => .ok { u' with program_name := "", description := "", usage := "" }
  | .error e => .error e

/-! Specification-side derived notions used by the theorems below. -/

/-- The registry state after Pass A has processed `k` indices starting at
`i`: `m_check_requirements` applied at `i`, `i+1`, …, `i+k-1` in order. -/
def passAFrom (u : Usage) (args : List Argument) (set_args : List Bool) (i : Nat) :
    Nat → List Argument × List Bool
  | 0 => (args, set_args)
  | k + 1 =>
    let p := passAFrom u args set_args i k
    m_check_requirements u (i + k) p.1 p.2

/-- The registry state Pass A has built when it reaches index `k`. -/
def passAState (u : Usage) (args : List Argument) (set_args : List Bool) (k : Nat) :
    List Argument × List Bool :=
  passAFrom u args set_args 0 k

/-- The bare stopping condition of Pass A at index `i` for a given state:
unset, required, and no direct-conflict partner currently set. -/
def stopCond (u : Usage) (args : List Argument) (set_args : List Bool) (i : Nat) : Bool :=
  !(isSetAt set_args i) && argRequired args i && !(conSetAny u args set_args i)

/-- Pass A stops at index `i`: when the scan reaches `i` (defaults applied to
all earlier indices), the argument there is unset, required, and none of its
direct-conflict partners is set at that point of the scan. -/
def passAStops (u : Usage) (args : List Argument) (set_args : List Bool) (i : Nat) : Bool :=
  stopCond u (passAState u args set_args i).1 (passAState u args set_args i).2 i

/-- All ordered pairs (i, j) over `n` indices, i ascending then j ascending:
the scan order of Pass B. -/
def passBpairs (n : Nat) : List (Nat × Nat) :=
  (List.range n).flatMap (fun i => (List.range n).map (fun j => (i, j)))

/-- The violation one ordered pair (i, j) contributes in Pass B: for i set
and j set in the same conflict group, the conflict diagnostic naming i before
j; for i set, j unset and a transitive requirement edge i → j, the
missing-required diagnostic naming j. -/
def passBviolation (u : Usage) (args : List Argument) (set_args : List Bool)
    (pr : Nat × Nat) : Option Msg :=
  if pr.1 ≠ pr.2 ∧ isSetAt set_args pr.1 = true then
    if isSetAt set_args pr.2 && in_conflict_names u (argNameAt args pr.1) (argNameAt args pr.2) then
      some (.conflict (argNameAt args pr.1) (argNameAt args pr.2))
    else if !(isSetAt set_args pr.2) && reqExistsT u (argNameAt args pr.1) (argNameAt args pr.2) then
      some (.missingRequired (argNameAt args pr.2))
    else none
  else none

/-- Does the token start with the switch character? -/
def startsWithSwitch (u : Usage) (tok : String) : Bool :=
  match tok.data with
  | [] => false
  | c :: _ => c == u.switch_char

/-- The token after stripping at most one leading switch character — the
string the parser compares against the help token. -/
def strippedRemainder (u : Usage) (tok : String) : List Char :=
  match tok.data with
  | [] => []
  | c :: rest => if c == u.switch_char then rest else c :: rest

/-- Consumption of an unnamed token per the spec: the whole token is the
value, appended in continuation mode or assigned to the first free unnamed
argument, and a syntax error at position `i` when neither applies. -/
def unnamedConsume (i : Nat) (tok : String) (st : ParseState) :
    Except (Msg × ParseState) ParseState :=
  let r := m_check_unnamed tok st
  if r.1 then .ok r.2 else .error (.syntaxError i tok, r.2)

/-- `y` is `x` with zero or more values appended and every other field
unchanged. -/
def ArgExtends (x y : Argument) : Prop :=
  ∃ t, y = { x with value := x.value ++ t }

/-- Pointwise `ArgExtends` over two registries: same arguments in the same
order, with value lists only ever extended. -/
def ArgsExtend (xs ys : List Argument) : Prop :=
  List.Forall₂ ArgExtends xs ys

/-- Whether a declaration-time operation succeeded (no assertion fired). -/
def exceptOk (e : Except String Usage) : Bool :=
  match e with
  | .ok _ => true
  | .error _ => false

/-- The registry slice a token step leaves behind, whether it continued or
stopped the parse. -/
def stepArgs (r : Except (Msg × ParseState) ParseState) : List Argument :=
  match r with
  | .ok s => s.args
  | .error ms => ms.2.args

/-! Concrete registries used by the evaluation theorems and witnesses. -/

/-- An unnamed, required argument accepting many values (the `file` argument
of the repository's own test registry). -/
def fileArg : Argument := { m_name := "file", m_required := true, variant := .unnamed true }

/-- A required named string argument with no default. -/
def posArg : Argument := { m_name := "p", m_required := true, variant := .named 'p' .string "" }

/-- A registry with the single many-valued unnamed argument `file`. -/
def manyUsage : Usage := { program_name := "prog", m_argsorder := [fileArg] }

/-- A registry with the unnamed `file` argument and the required named
argument `p`. -/
def fileAndP : Usage := { program_name := "prog", m_argsorder := [fileArg, posArg] }

/-- A registry with one argument named `a` (used against `remove_all`). -/
def oneArgUsage : Usage :=
  { program_name := "prog", m_argsorder := [{ m_name := "a", variant := .unnamed false }] }

/-- Arguments x, y, p, q, r with a requirement edge x → y and the conflict
pairs (p, q) and (q, r). -/
def graphUsage : Usage :=
  { program_name := "prog"
    m_argsorder :=
      [ { m_name := "x", variant := .named 'x' .string "" }
      , { m_name := "y", variant := .named 'y' .string "" }
      , { m_name := "p", variant := .named '1' .string "" }
      , { m_name := "q", variant := .named '2' .string "" }
      , { m_name := "r", variant := .named '3' .string "" } ]
    m_requirements := [("x", "y")]
    m_conflicts := [("p", "q"), ("q", "r")] }

/-- A registry where the named argument `d` has the default value "dv" and a
direct requirement on `y`, which has no default of its own. -/
def defUsage : Usage :=
  { program_name := "prog"
    m_argsorder :=
      [ { m_name := "d", variant := .named 'd' .string "dv" }
      , { m_name := "y", variant := .named 'y' .string "" } ]
    m_requirements := [("d", "y")] }

/-- The name-matching part of `m_check_type`'s loop condition at index `i`,
without the unset requirement: a named argument whose name or shortcut
equals the name part `p`. -/
def typeMatchOnName (p : List Char) (args : List Argument) (i : Nat) : Bool :=
  match args[i]? with
  | some a => a.named && (p == a.m_name.data || p == a.shortcutChars)
  | none => false

/-- A registry slice with one named argument `x` that already received a
value earlier in the parse. -/
def xSetArgs : List Argument :=
  [{ m_name := "x", value := ["v"], variant := .named 'x' .string "" }]

/-! Helper lemmas. -/

theorem argNameAt_pushValue (args : List Argument) (x : Nat) (v : String) (j : Nat) :
    argNameAt (pushValue args x v) j = argNameAt args j := by
  unfold pushValue
  cases h : args[x]? with
  | none => rfl
  | some a =>
    have hlt : x < args.length := by
      by_contra hc
      rw [List.getElem?_eq_none (by omega)] at h
      exact Option.noConfusion h
    by_cases hxj : x = j
    · subst hxj
      simp [argNameAt, List.getElem?_set_self hlt, h]
    · simp [argNameAt, List.getElem?_set_ne hxj]

theorem argNameAt_m_check_requirements (u : Usage) (x : Nat) (args : List Argument)
    (set_args : List Bool) (j : Nat) :
    argNameAt (m_check_requirements u x args set_args).1 j = argNameAt args j := by
  unfold m_check_requirements
  cases h : args[x]? with
  | none => rfl
  | some a =>
    dsimp only
    split
    · split
      · split
        · exact argNameAt_pushValue args x a.default_value j
        · rfl
      · rfl
    · rfl

theorem argNameAt_passAFrom (u : Usage) (args : List Argument) (set_args : List Bool)
    (i : Nat) (k : Nat) (j : Nat) :
    argNameAt (passAFrom u args set_args i k).1 j = argNameAt args j := by
  induction k with
  | zero => rfl
  | succ k ih =>
    show argNameAt (m_check_requirements u (i + k) (passAFrom u args set_args i k).1
      (passAFrom u args set_args i k).2).1 j = argNameAt args j
    rw [argNameAt_m_check_requirements]
    exact ih

theorem m_check_argument_go_succ (u : Usage) (i n : Nat) (args : List Argument)
    (set_args : List Bool) :
    m_check_argument_go u i (n + 1) args set_args =
      if stopCond u args set_args i then (some i, args, set_args)
      else m_check_argument_go u (i + 1) n (m_check_requirements u i args set_args).1
        (m_check_requirements u i args set_args).2 := rfl

theorem passAFrom_shift (u : Usage) (args : List Argument) (set_args : List Bool)
    (i : Nat) : ∀ k,
    passAFrom u args set_args i (k + 1) =
      passAFrom u (m_check_requirements u i args set_args).1
        (m_check_requirements u i args set_args).2 (i + 1) k := by
  intro k
  induction k with
  | zero =>
    show m_check_requirements u (i + 0) args set_args =
      ((m_check_requirements u i args set_args).1, (m_check_requirements u i args set_args).2)
    rw [Nat.add_zero]
  | succ k ih =>
    show m_check_requirements u (i + (k + 1)) (passAFrom u args set_args i (k + 1)).1
        (passAFrom u args set_args i (k + 1)).2 = _
    rw [ih]
    have hidx : i + (k + 1) = (i + 1) + k := by omega
    rw [hidx]
    rfl

theorem m_check_argument_go_finds (u : Usage) : ∀ (j n i : Nat) (args : List Argument)
    (set_args : List Bool), j < n →
    stopCond u (passAFrom u args set_args i j).1 (passAFrom u args set_args i j).2 (i + j) = true →
    (∀ k, k < j →
      stopCond u (passAFrom u args set_args i k).1 (passAFrom u args set_args i k).2 (i + k) = false) →
    m_check_argument_go u i n args set_args =
      (some (i + j), (passAFrom u args set_args i j).1, (passAFrom u args set_args i j).2) := by
  intro j
  induction j with
  | zero =>
    intro n i args set_args hn hstop _
    match n, hn with
    | n + 1, _ =>
      rw [m_check_argument_go_succ]
      simp only [passAFrom, Nat.add_zero] at hstop ⊢
      rw [if_pos hstop]
  | succ j ih =>
    intro n i args set_args hn hstop hmin
    match n, hn with
    | n + 1, hn =>
      have h0 : stopCond u args set_args i = false := by
        have h := hmin 0 (Nat.succ_pos j)
        simpa [passAFrom] using h
      rw [m_check_argument_go_succ]
      rw [h0]
      simp only [Bool.false_eq_true, if_false]
      have hstop' := hstop
      rw [passAFrom_shift] at hstop'
      have hidx : i + (j + 1) = (i + 1) + j := by omega
      rw [hidx] at hstop'
      have hmin' : ∀ k, k < j →
          stopCond u (passAFrom u (m_check_requirements u i args set_args).1
              (m_check_requirements u i args set_args).2 (i + 1) k).1
            (passAFrom u (m_check_requirements u i args set_args).1
              (m_check_requirements u i args set_args).2 (i + 1) k).2 ((i + 1) + k) = false := by
        intro k hk
        have h := hmin (k + 1) (by omega)
        rw [passAFrom_shift] at h
        have : i + (k + 1) = (i + 1) + k := by omega
        rw [this] at h
        exact h
      have := ih n (i + 1) (m_check_requirements u i args set_args).1
        (m_check_requirements u i args set_args).2 (by omega) hstop' hmin'
      rw [this, ← passAFrom_shift]
      rw [hidx]

/-- Claim C2: in validation Pass A, arguments are scanned in declaration
order with the conditional defaults applied along the way; at the first index
`i` (in declaration order) holding an unset required argument none of whose
direct-conflict partners is set at that point of the scan, validation fails
with the missing-required diagnostic naming that argument, and the registry
state is exactly the one built from the indices before `i` — no later
argument is examined. -/
theorem passA_first_missing_required (u : Usage) (args : List Argument) (set_args : List Bool)
    (i : Nat) (hi : i < args.length)
    (hstop : passAStops u args set_args i = true)
    (hmin : ∀ k, k < i → passAStops u args set_args k = false) :
    m_check_dependencies u args set_args =
      (.missingRequired (argNameAt args i),
        (passAState u args set_args i).1, (passAState u args set_args i).2) := by
  have hstop' : stopCond u (passAFrom u args set_args 0 i).1
      (passAFrom u args set_args 0 i).2 (0 + i) = true := by
    simpa [passAStops, passAState, Nat.zero_add] using hstop
  have hmin' : ∀ k, k < i → stopCond u (passAFrom u args set_args 0 k).1
      (passAFrom u args set_args 0 k).2 (0 + k) = false := by
    intro k hk
    simpa [passAStops, passAState, Nat.zero_add] using hmin k hk
  have hgo : m_check_argument u args set_args =
      (some (0 + i), (passAFrom u args set_args 0 i).1, (passAFrom u args set_args 0 i).2) :=
    m_check_argument_go_finds u i args.length 0 args set_args (by omega) hstop' hmin'
  unfold m_check_dependencies
  rw [hgo]
  simp [Nat.zero_add, passAState, argNameAt_passAFrom]

/-- Witness for C2 on a concrete registry: with `file` and `p` both unset,
Pass A stops at index 0 and reports `file`. -/
theorem passA_first_missing_required_witness :
    m_check_dependencies fileAndP fileAndP.m_argsorder [false, false] =
      (.missingRequired (argNameAt fileAndP.m_argsorder 0),
        (passAState fileAndP fileAndP.m_argsorder [false, false] 0).1,
        (passAState fileAndP fileAndP.m_argsorder [false, false] 0).2) :=
  passA_first_missing_required fileAndP fileAndP.m_argsorder [false, false] 0 (by decide)
    (by decide) (fun k hk => absurd hk (Nat.not_lt_zero k))

/-- Claim C1 (code bug): on a registry whose unnamed argument accepts many
values, the second unnamed token is appended to the argument's value list but
`m_check_unnamed` leaves its `found` flag false, so the parse fails with a
syntax error at that token instead of continuing. -/
theorem many_continuation_token_syntax_error :
    set_parameters manyUsage ["prog", "a", "b"] =
      (Msg.syntaxError 2 "b",
        { manyUsage with m_argsorder := [{ fileArg with value := ["a", "b"] }] }) := by
  decide

/-- Claim C5 counterexample: the token "h" does not start with the switch
character, yet the parse terminates with the help-requested result and the
unnamed argument consumes no value — the help comparison is performed on
unnamed tokens too. -/
theorem bare_help_token_not_consumed_as_value :
    set_parameters manyUsage ["prog", "h"] = (Msg.help, manyUsage) := by
  decide

/-- Claim C7 counterexample: `set_parameters` returns the non-empty failure
diagnostic for the missing required argument `p`, yet the value "a" assigned
to `file` during the same attempt remains committed in the registry. -/
theorem failed_parse_keeps_committed_value :
    set_parameters fileAndP ["prog", "a"] =
      (Msg.missingRequired "p",
        { fileAndP with m_argsorder := [{ fileArg with value := ["a"] }, posArg] }) := by
  decide

/-- Claim C9 (code bug): on a registry holding one argument named "a", both
`remove_all` and `clear` run into the `m_arguments[0]` null-pointer key fault
instead of emptying the registry. -/
theorem remove_all_null_key_fault :
    remove_all oneArgUsage = Except.error NULL_DEREF ∧
    clear oneArgUsage = Except.error NULL_DEREF :=
  ⟨rfl, rfl⟩

/-- Claim C10: with argc = 0, `set_parameters` returns the exact diagnostic
"No argument to evaluate." and leaves the registry untouched. -/
theorem set_parameters_argc_zero (u : Usage) :
    set_parameters u [] = (Msg.noArgument, u) ∧
    Msg.render u.program_name u.switch_char u.help_arg Msg.noArgument =
      "No argument to evaluate." :=
  ⟨rfl, rfl⟩

theorem inner_findSome (u : Usage) (args : List Argument) (set_args : List Bool) (i : Nat)
    (hset : isSetAt set_args i = true) :
    ∀ js : List Nat,
    m_check_dependencies_inner u args set_args i js =
      (js.map (fun j => (i, j))).findSome? (passBviolation u args set_args) := by
  intro js
  induction js with
  | nil => rfl
  | cons j rest ih =>
    rw [List.map_cons, List.findSome?_cons]
    by_cases hij : i = j
    · subst hij
      simp [m_check_dependencies_inner, passBviolation, ih]
    · cases h1 : (isSetAt set_args j &&
          in_conflict_names u (argNameAt args i) (argNameAt args j)) with
      | true => simp [m_check_dependencies_inner, passBviolation, hij, hset, h1]
      | false =>
        cases h2 : (!(isSetAt set_args j) &&
            reqExistsT u (argNameAt args i) (argNameAt args j)) with
        | true => simp [m_check_dependencies_inner, passBviolation, hij, hset, h1, h2]
        | false => simp [m_check_dependencies_inner, passBviolation, hij, hset, h1, h2, ih]

theorem outer_findSome (u : Usage) (args : List Argument) (set_args : List Bool) :
    ∀ is : List Nat,
    m_check_dependencies_outer u args set_args is =
      ((is.flatMap (fun i => (List.range args.length).map (fun j => (i, j)))).findSome?
        (passBviolation u args set_args)).getD Msg.ok := by
  intro is
  induction is with
  | nil => rfl
  | cons i rest ih =>
    rw [List.flatMap_cons, List.findSome?_append]
    by_cases hset : isSetAt set_args i = true
    · rw [← inner_findSome u args set_args i hset (List.range args.length)]
      show (if isSetAt set_args i = true then
          match m_check_dependencies_inner u args set_args i (List.range args.length) with
          | some m => m
          | none => m_check_dependencies_outer u args set_args rest
        else m_check_dependencies_outer u args set_args rest) = _
      rw [if_pos hset]
      cases hmatch : m_check_dependencies_inner u args set_args i (List.range args.length) with
      | some m => simp
      | none => simpa using ih
    · have hfalse : isSetAt set_args i = false := by
        cases h : isSetAt set_args i
        · rfl
        · exact absurd h hset
      have hnone : ((List.range args.length).map (fun j => (i, j))).findSome?
          (passBviolation u args set_args) = none := by
        rw [List.findSome?_eq_none_iff]
        intro x hx
        simp only [List.mem_map] at hx
        obtain ⟨j, _, rfl⟩ := hx
        simp [passBviolation, hfalse]
      rw [hnone]
      show (if isSetAt set_args i = true then
          match m_check_dependencies_inner u args set_args i (List.range args.length) with
          | some m => m
          | none => m_check_dependencies_outer u args set_args rest
        else m_check_dependencies_outer u args set_args rest) = _
      rw [if_neg (by simp [hfalse])]
      simpa using ih

/-- Claim C3: validation Pass B equals a first-violation search over all
ordered pairs (i, j) in scan order — i ascending, then j ascending, both in
declaration order: for i set and j set in the same conflict group the result
is the conflict diagnostic naming i before j; for i set, j unset with a
transitive requirement edge i → j it is the missing-required diagnostic
naming j; the first violating pair determines the diagnostic, and with no
violating pair the result is the empty (success) diagnostic. -/
theorem passB_first_violation_in_scan_order (u : Usage) (args : List Argument)
    (set_args : List Bool) :
    m_check_dependencies_outer u args set_args (List.range args.length) =
      ((passBpairs args.length).findSome? (passBviolation u args set_args)).getD Msg.ok := by
  rw [passBpairs]
  exact outer_findSome u args set_args (List.range args.length)

/-- Claim C4: for an argument that is unset, named and has a non-empty
default value, `m_check_requirements` assigns the default and marks the
argument set if and only if it has no direct requirement or at least one of
its direct requirements is set at that point of the scan; otherwise it
leaves the registry and the flags untouched — in particular the default is
NOT applied when its only direct requirement is unset. -/
theorem default_backfill_conditional (u : Usage) (arg_index : Nat) (args : List Argument)
    (set_args : List Bool) (a : Argument)
    (ha : args[arg_index]? = some a) (hnamed : a.named = true)
    (hdval : a.default_value ≠ "") (hunset : isSetAt set_args arg_index = false) :
    ((directRequirements u a.m_name = [] ∨
        ∃ r ∈ directRequirements u a.m_name, setByName args set_args r = true) →
      m_check_requirements u arg_index args set_args =
        (pushValue args arg_index a.default_value, set_args.set arg_index true)) ∧
    (¬(directRequirements u a.m_name = [] ∨
        ∃ r ∈ directRequirements u a.m_name, setByName args set_args r = true) →
      m_check_requirements u arg_index args set_args = (args, set_args)) := by
  have hcond : (!(isSetAt set_args arg_index) && a.named) = true := by
    rw [hunset, hnamed]
    rfl
  have hb : ((directRequirements u a.m_name).isEmpty ||
        (directRequirements u a.m_name).any (setByName args set_args)) = true ↔
      (directRequirements u a.m_name = [] ∨
        ∃ r ∈ directRequirements u a.m_name, setByName args set_args r = true) := by
    simp [List.any_eq_true]
  constructor
  · intro h
    unfold m_check_requirements
    rw [ha]
    dsimp only
    rw [if_pos hcond, if_pos hdval, if_pos (hb.mpr h)]
  · intro h
    unfold m_check_requirements
    rw [ha]
    dsimp only
    rw [if_pos hcond, if_pos hdval]
    rw [if_neg]
    intro hc
    exact h (hb.mp hc)

/-- Witness for C4: in `defUsage` with both arguments unset, `d`'s only
direct requirement `y` is unset, so `d`'s default is not applied. -/
theorem default_backfill_conditional_witness :
    m_check_requirements defUsage 0 defUsage.m_argsorder [false, false] =
      (defUsage.m_argsorder, [false, false]) :=
  (default_backfill_conditional defUsage 0 defUsage.m_argsorder [false, false]
    { m_name := "d", variant := .named 'd' .string "dv" }
    rfl rfl (by decide) rfl).2 (by decide)

/-- Claim C6: when every named argument whose name or shortcut equals the
extracted name part is already set, `m_check_type` — whose lookup matches
only unset named arguments — fails with the unknown-argument diagnostic and
leaves all values and flags unchanged, rather than overwriting the earlier
value. -/
theorem resupplied_named_argument_unknown (p : List Char) (type_p : Argument_Type)
    (value : String) (args : List Argument) (set_args : List Bool)
    (h : ∀ i, i < args.length → typeMatchOnName p args i = true → isSetAt set_args i = true) :
    m_check_type p type_p value args set_args =
      (.unknownArgument (String.mk p), args, set_args) := by
  have hfind : firstTypeMatch p args set_args = none := by
    unfold firstTypeMatch
    rw [List.find?_eq_none]
    intro i hi
    simp only [List.mem_range] at hi
    intro hmatch
    unfold typeMatchAt at hmatch
    cases ha : args[i]? with
    | none =>
      rw [ha] at hmatch
      exact Bool.noConfusion hmatch
    | some a =>
      rw [ha] at hmatch
      simp only [Bool.and_eq_true, Bool.not_eq_true'] at hmatch
      obtain ⟨⟨hn, hns⟩, hm⟩ := hmatch
      have hset := h i hi (by simp [typeMatchOnName, ha, hn, hm])
      rw [hset] at hns
      exact Bool.noConfusion hns
  unfold m_check_type
  rw [hfind]

/-- Witness for C6: re-supplying the already-set argument `x` yields the
unknown-argument diagnostic and no overwrite. -/
theorem resupplied_named_argument_unknown_witness :
    m_check_type "x".data Argument_Type.string "w" xSetArgs [true] =
      (.unknownArgument (String.mk "x".data), xSetArgs, [true]) :=
  resupplied_named_argument_unknown "x".data Argument_Type.string "w" xSetArgs [true]
    (by decide)

/-- Claim C8: once a direct or transitive requirement edge exists between two
arguments in either direction, `add_conflict` fails a declaration-time
assertion; and once the two arguments are in conflict — directly declared or
members of the same cascaded group — `add_requirement` fails a
declaration-time assertion. -/
theorem requirement_conflict_mutual_exclusion (u : Usage) (a b : String) :
    ((reqExistsT u a b = true ∨ reqExistsT u b a = true) →
      exceptOk (add_conflict u a b) = false) ∧
    (in_conflict_names u a b = true → exceptOk (add_requirement u a b) = false) := by
  constructor
  · intro h
    have hor : (reqExistsT u a b || reqExistsT u b a) = true := by
      rcases h with h | h <;> simp [h]
    unfold add_conflict
    split_ifs with h1 h2
    · rfl
    · rfl
    split
    · split_ifs with h3 <;> rfl
    · rfl
  · intro h
    unfold add_requirement
    split_ifs with h1 h2 h3 <;> rfl

/-- Witness for C8: in `graphUsage`, the requirement edge x → y blocks
`add_conflict x y`, and the cascaded conflict group of p, q, r blocks
`add_requirement p r`. -/
theorem requirement_conflict_mutual_exclusion_witness :
    exceptOk (add_conflict graphUsage "x" "y") = false ∧
    exceptOk (add_requirement graphUsage "p" "r") = false :=
  ⟨(requirement_conflict_mutual_exclusion graphUsage "x" "y").1 (Or.inl (by decide)),
   (requirement_conflict_mutual_exclusion graphUsage "p" "r").2 (by decide)⟩

theorem string_mk_data (s : String) : String.mk s.data = s := rfl

theorem m_check_type_fst_ne_help (p : List Char) (type_p : Argument_Type) (value : String)
    (args : List Argument) (set_args : List Bool) :
    (m_check_type p type_p value args set_args).1 ≠ Msg.help := by
  unfold m_check_type
  split
  · split
    · split
      · intro hc
        exact Msg.noConfusion hc
      · intro hc
        exact Msg.noConfusion hc
    · intro hc
      exact Msg.noConfusion hc
  · intro hc
    exact Msg.noConfusion hc

theorem parse_named_finish_ne_help (i : Nat) (tok : String) (p : List Char)
    (type_p : Argument_Type) (value : List Char) (st : ParseState) (st' : ParseState) :
    parse_named_finish i tok p type_p value st ≠ .error (.help, st') := by
  unfold parse_named_finish
  split
  · intro hc
    rw [Except.error.injEq, Prod.mk.injEq] at hc
    exact Msg.noConfusion hc.1
  · dsimp only
    split
    · intro hc
      exact Except.noConfusion hc
    · intro hc
      rw [Except.error.injEq, Prod.mk.injEq] at hc
      exact m_check_type_fst_ne_help p type_p (String.mk value) st.args st.set_args
        (hc.1 ▸ rfl)

theorem strippedRemainder_named (u : Usage) (tok : String) (c : Char) (rest : List Char)
    (htok : tok.data = c :: rest) (hc : (c == u.switch_char) = true) :
    strippedRemainder u tok = rest := by
  unfold strippedRemainder
  rw [htok]
  simp [hc]

theorem strippedRemainder_unnamed (u : Usage) (tok : String) (c : Char) (rest : List Char)
    (htok : tok.data = c :: rest) (hc : (c == u.switch_char) = false) :
    strippedRemainder u tok = c :: rest := by
  unfold strippedRemainder
  rw [htok]
  simp [hc]

/-- Claim C5 (amended): a non-empty token that does not start with the switch
character and is not equal to the help token is consumed whole as an unnamed
value (appended in continuation mode or assigned to the first free unnamed
argument, a syntax error otherwise); and the parser yields the distinguished
help-requested result exactly for the tokens whose remainder after stripping
at most one leading switch character is non-empty and equals the help token —
including a bare unnamed token equal to the help token. -/
theorem unnamed_token_consumption_and_help (u : Usage) (i : Nat) (tok : String)
    (st : ParseState) :
    (tok.data ≠ [] → startsWithSwitch u tok = false → tok.data ≠ u.help_arg.data →
      parse_token u i tok st = unnamedConsume i tok st) ∧
    (parse_token u i tok st = .error (.help, st) ↔
      (tok.data ≠ [] ∧ strippedRemainder u tok ≠ [] ∧
        strippedRemainder u tok = u.help_arg.data)) := by
  constructor
  · intro h1 h2 h3
    cases htok : tok.data with
    | nil => exact absurd htok h1
    | cons c rest =>
      have hc : (c == u.switch_char) = false := by
        have hs := h2
        unfold startsWithSwitch at hs
        rw [htok] at hs
        exact hs
      have hne : ((c :: rest) == u.help_arg.data) = false := by
        rw [beq_eq_false_iff_ne]
        rw [← htok]
        exact h3
      have hmk : String.mk (c :: rest) = tok := by
        rw [← htok]
      unfold parse_token
      rw [htok]
      simp only [hc, Bool.false_eq_true, if_false, List.isEmpty_cons, hne, Bool.not_false,
        if_true, hmk, unnamedConsume]
  · cases htok : tok.data with
    | nil =>
      have heval : parse_token u i tok st = .ok st := by
        unfold parse_token
        rw [htok]
      rw [heval]
      simp [htok]
    | cons c rest =>
      by_cases hc : (c == u.switch_char) = true
      · have hstr := strippedRemainder_named u tok c rest htok hc
        cases hrest : rest with
        | nil =>
          have heval : parse_token u i tok st = .error (.syntaxError i tok, st) := by
            unfold parse_token
            rw [htok, hrest]
            simp [hc]
          rw [heval, hstr, hrest]
          simp
        | cons d ds =>
          by_cases hh : (rest == u.help_arg.data) = true
          · have heval : parse_token u i tok st = .error (.help, st) := by
              unfold parse_token
              rw [htok]
              simp [hc, hrest ▸ hh, hrest]
            rw [heval, hstr]
            constructor
            · intro _
              refine ⟨?_, ?_, beq_iff_eq.mp hh⟩
              · simp
              · rw [hrest]
                simp
            · intro _
              rfl
          · have hne : parse_token u i tok st ≠ .error (.help, st) := by
              unfold parse_token
              rw [htok]
              simp only [hc, if_true, if_pos, Bool.not_true]
              rw [hrest]
              simp only [List.isEmpty_cons, Bool.false_eq_true, if_false,
                hrest ▸ hh]
              split
              · intro hx
                rw [Except.error.injEq, Prod.mk.injEq] at hx
                exact Msg.noConfusion hx.1
              · split
                · exact parse_named_finish_ne_help _ _ _ _ _ _ _
                · split
                  · split
                    · intro hx
                      rw [Except.error.injEq, Prod.mk.injEq] at hx
                      exact Msg.noConfusion hx.1
                    · exact parse_named_finish_ne_help _ _ _ _ _ _ _
                  · split
                    · intro hx
                      rw [Except.error.injEq, Prod.mk.injEq] at hx
                      exact Msg.noConfusion hx.1
                    · exact parse_named_finish_ne_help _ _ _ _ _ _ _
            rw [hstr]
            constructor
            · intro hx
              exact absurd hx hne
            · rintro ⟨-, -, h3⟩
              exact absurd (beq_iff_eq.mpr (hrest ▸ h3)) (hrest ▸ hh)
      · have hcf : (c == u.switch_char) = false := by
          cases hcb : (c == u.switch_char)
          · rfl
          · exact absurd hcb hc
        have hstr := strippedRemainder_unnamed u tok c rest htok hcf
        by_cases hh : ((c :: rest) == u.help_arg.data) = true
        · have heval : parse_token u i tok st = .error (.help, st) := by
            unfold parse_token
            rw [htok]
            simp [hcf, hh]
          rw [heval, hstr]
          constructor
          · intro _
            refine ⟨?_, ?_, beq_iff_eq.mp hh⟩
            · simp
            · simp
          · intro _
            rfl
        · have hne : parse_token u i tok st ≠ .error (.help, st) := by
            unfold parse_token
            rw [htok]
            simp only [hcf, Bool.false_eq_true, if_false, List.isEmpty_cons,
              (by cases hb : ((c :: rest) == u.help_arg.data); rfl; exact absurd hb hh :
                ((c :: rest) == u.help_arg.data) = false), Bool.not_false, if_true]
            split
            · intro hx
              exact Except.noConfusion hx
            · intro hx
              rw [Except.error.injEq, Prod.mk.injEq] at hx
              exact Msg.noConfusion hx.1
          rw [hstr]
          constructor
          · intro hx
            exact absurd hx hne
          · rintro ⟨-, -, h3⟩
            exact absurd (beq_iff_eq.mpr h3) hh

/-- Witness for C5 (amended): the token "x" (no switch prefix, not the help
token) is consumed whole as an unnamed value in `manyUsage`. -/
theorem unnamed_token_consumption_and_help_witness :
    parse_token manyUsage 1 "x" ⟨manyUsage.m_argsorder, [false], false, 0⟩ =
      unnamedConsume 1 "x" ⟨manyUsage.m_argsorder, [false], false, 0⟩ :=
  (unnamed_token_consumption_and_help manyUsage 1 "x"
    ⟨manyUsage.m_argsorder, [false], false, 0⟩).1
    (by decide) (by decide) (by decide)

theorem ArgExtends_refl (x : Argument) : ArgExtends x x :=
  ⟨[], by simp⟩

theorem ArgExtends_trans {x y z : Argument} (h1 : ArgExtends x y) (h2 : ArgExtends y z) :
    ArgExtends x z := by
  obtain ⟨t1, rfl⟩ := h1
  obtain ⟨t2, rfl⟩ := h2
  exact ⟨t1 ++ t2, by simp⟩

theorem ArgsExtend_refl (xs : List Argument) : ArgsExtend xs xs :=
  List.forall₂_same.mpr (fun x _ => ArgExtends_refl x)

theorem ArgsExtend_trans {xs ys zs : List Argument} (h1 : ArgsExtend xs ys)
    (h2 : ArgsExtend ys zs) : ArgsExtend xs zs := by
  induction h1 generalizing zs with
  | nil =>
    cases h2
    exact .nil
  | cons hxy hrest ih =>
    cases h2 with
    | cons hyz hrest2 => exact .cons (ArgExtends_trans hxy hyz) (ih hrest2)

theorem ArgsExtend_set (args : List Argument) (i : Nat) (a a' : Argument)
    (ha : args[i]? = some a) (hext : ArgExtends a a') : ArgsExtend args (args.set i a') := by
  induction args generalizing i with
  | nil => exact absurd ha (by simp)
  | cons x xs ih =>
    cases i with
    | zero =>
      have hx : x = a := by simpa using ha
      subst hx
      exact .cons hext (ArgsExtend_refl xs)
    | succ n =>
      have ha' : xs[n]? = some a := by simpa using ha
      exact .cons (ArgExtends_refl x) (ih n ha')

theorem ArgsExtend_pushValue (args : List Argument) (i : Nat) (v : String) :
    ArgsExtend args (pushValue args i v) := by
  unfold pushValue
  cases ha : args[i]? with
  | none => exact ArgsExtend_refl args
  | some a => exact ArgsExtend_set args i a _ ha ⟨[v], rfl⟩

theorem ArgsExtend_m_check_unnamed (value : String) (st : ParseState) :
    ArgsExtend st.args (m_check_unnamed value st).2.args := by
  unfold m_check_unnamed
  split
  · exact ArgsExtend_pushValue st.args st.unnamed value
  · split
    · exact ArgsExtend_pushValue st.args _ value
    · exact ArgsExtend_refl st.args

theorem ArgsExtend_m_check_type (p : List Char) (type_p : Argument_Type) (value : String)
    (args : List Argument) (set_args : List Bool) :
    ArgsExtend args (m_check_type p type_p value args set_args).2.1 := by
  unfold m_check_type
  split
  · split
    · split
      · exact ArgsExtend_refl args
      · exact ArgsExtend_pushValue args _ value
    · exact ArgsExtend_refl args
  · exact ArgsExtend_refl args

theorem ArgsExtend_parse_named_finish (i : Nat) (tok : String) (p : List Char)
    (type_p : Argument_Type) (value : List Char) (st : ParseState) :
    ArgsExtend st.args (stepArgs (parse_named_finish i tok p type_p value st)) := by
  unfold parse_named_finish
  split
  · exact ArgsExtend_refl st.args
  · dsimp only
    split
    · exact ArgsExtend_m_check_type p type_p (String.mk value) st.args st.set_args
    · exact ArgsExtend_m_check_type p type_p (String.mk value) st.args st.set_args

theorem ArgsExtend_parse_token (u : Usage) (i : Nat) (tok : String) (st : ParseState) :
    ArgsExtend st.args (stepArgs (parse_token u i tok st)) := by
  unfold parse_token
  split
  · exact ArgsExtend_refl st.args
  · dsimp only
    repeat' split
    all_goals first
      | exact ArgsExtend_refl st.args
      | exact ArgsExtend_parse_named_finish _ _ _ _ _ _
      | exact ArgsExtend_m_check_unnamed _ st

theorem ArgsExtend_m_parser_go (u : Usage) :
    ∀ (toks : List String) (i : Nat) (st : ParseState),
    ArgsExtend st.args (m_parser_go u i toks st).2.args := by
  intro toks
  induction toks with
  | nil =>
    intro i st
    exact ArgsExtend_refl st.args
  | cons tok rest ih =>
    intro i st
    have h1 := ArgsExtend_parse_token u i tok st
    unfold m_parser_go
    cases hstep : parse_token u i tok st with
    | ok st' =>
      rw [hstep] at h1
      exact ArgsExtend_trans h1 (ih (i + 1) st')
    | error ms =>
      rw [hstep] at h1
      obtain ⟨m, st'⟩ := ms
      exact h1

theorem ArgsExtend_m_check_requirements (u : Usage) (x : Nat) (args : List Argument)
    (set_args : List Bool) :
    ArgsExtend args (m_check_requirements u x args set_args).1 := by
  unfold m_check_requirements
  split
  · dsimp only
    split
    · split
      · split
        · exact ArgsExtend_pushValue args x _
        · exact ArgsExtend_refl args
      · exact ArgsExtend_refl args
    · exact ArgsExtend_refl args
  · exact ArgsExtend_refl args

theorem ArgsExtend_m_check_argument_go (u : Usage) :
    ∀ (n i : Nat) (args : List Argument) (set_args : List Bool),
    ArgsExtend args (m_check_argument_go u i n args set_args).2.1 := by
  intro n
  induction n with
  | zero =>
    intro i args set_args
    exact ArgsExtend_refl args
  | succ n ih =>
    intro i args set_args
    rw [m_check_argument_go_succ]
    split
    · exact ArgsExtend_refl args
    · exact ArgsExtend_trans (ArgsExtend_m_check_requirements u i args set_args)
        (ih (i + 1) _ _)

theorem ArgsExtend_m_check_dependencies (u : Usage) (args : List Argument)
    (set_args : List Bool) :
    ArgsExtend args (m_check_dependencies u args set_args).2.1 := by
  have hgo := ArgsExtend_m_check_argument_go u args.length 0 args set_args
  unfold m_check_dependencies
  rcases hA : m_check_argument u args set_args with ⟨o, args', set'⟩
  have hext : ArgsExtend args args' := by
    have heq : m_check_argument_go u 0 args.length args set_args = (o, args', set') := hA
    rw [heq] at hgo
    exact hgo
  cases o with
  | none => exact hext
  | some j => exact hext

/-- Claim C7 (amended): `set_parameters` only ever appends to the registry's
value lists — every field of every argument other than the extended `value`
list is unchanged — and in particular it performs no rollback: values
committed before a failure point stay committed. -/
theorem set_parameters_only_appends_values (u : Usage) (argv : List String) :
    ArgsExtend u.m_argsorder (set_parameters u argv).2.m_argsorder := by
  unfold set_parameters
  split
  · exact ArgsExtend_refl u.m_argsorder
  · dsimp only
    have hp := ArgsExtend_m_parser_go u (argv.drop 1) 1
      ⟨u.m_argsorder, List.replicate u.m_argsorder.length false, false, 0⟩
    split
    · exact hp
    · exact ArgsExtend_trans hp
        (ArgsExtend_m_check_dependencies u _ _)
